import Mathlib

/-!
Verification of the lithograph blog server's content pipeline
(`src/main.rs`, `src/utils.rs`) against its specification.

The pipeline's own code (the `blog` route = Post Index Builder, the
`get_blog` route = Single Post Resolver, and `utils::highlight_text`) is
embedded shallowly below.  The external crates it calls
(`markdown_meta_parser`, `comrak`, `syntect`) are not part of this
repository; they are modelled as explicit function-valued parameters
(`Deps`, `Syntect`), so every theorem is about the repository's control
flow over an arbitrary behaviour of those libraries.  Two externals whose
behaviour the claims depend on pointwise are modelled concretely from
their documented, fixed semantics: `chrono`'s parsing of the fixed
`%Y-%m-%d` date format (`parseDate`) and `String::from_utf8` (`utf8Decode`).

A Rust panic (`unwrap` on `None`/`Err`) yields no value to any caller;
every embedded operation therefore returns an `Option`, and `none` means
"the Rust code panics here".  The Rust originals return plain values
(`fn blog() -> BlogTemplate`) or `Result` whose only error is
`Status::NotFound`, so `none` never models an error *value*.
-/

namespace Lithograph

/-- `markdown_meta_parser::Value` as used by `main.rs`: only the scalar
string and string-array shapes are ever matched on (`Value::String`,
`Value::Array`); every other variant of the crate falls into the
wildcard arms, which `arr`/`str` mismatches already exercise. -/
inductive MetaValue where
  | str (s : String)
  | arr (xs : List String)
deriving DecidableEq, Repr

/-- `markdown_meta_parser::MetaData`: the record the routes build before
calling `.parse()` (main.rs:104-108 and main.rs:189-193). -/
structure MetaData where
  content : String
  required : List String
  type_mark : List (String × String)
deriving DecidableEq, Repr

/-- The `Post` struct of main.rs:53-59 (the spec's `PostSummary`);
`blurb` holds the rendered HTML of the front-matter blurb. -/
structure Post where
  date : String
  title : String
  slug : String
  blurb : String
  tags : List String
deriving DecidableEq, Repr

/-- Core payload of `PostTemplate` (main.rs:73-79): the extracted title
and the rendered body HTML (`post`).  The template's `year`/`path`/
`version` fields are ambient web-layer values outside the core. -/
structure PostDetail where
  title : String
  post : String
deriving DecidableEq, Repr

/-- Result of the `get_blog` route: `Err(Status::NotFound)` or a built
response carrying a `PostDetail`. -/
inductive ResolveResult where
  | notFound
  | ok (d : PostDetail)
deriving DecidableEq, Repr

/-- `comrak::ComrakExtensionOptions` (the fields set at main.rs:133-144
and main.rs:203-214). -/
structure ComrakExtensionOptions where
  strikethrough : Bool
  tagfilter : Bool
  table : Bool
  autolink : Bool
  tasklist : Bool
  superscript : Bool
  header_ids : Option String
  footnotes : Bool
  description_lists : Bool
  front_matter_delimiter : Option String
deriving DecidableEq, Repr

/-- `comrak::ComrakParseOptions`. -/
structure ComrakParseOptions where
  smart : Bool
  default_info_string : Option String
deriving DecidableEq, Repr

/-- `comrak::ComrakRenderOptions`.  The source field named `unsafe_`
(raw-HTML passthrough) is called `raw_html` here because the original
name is not available in this development. -/
structure ComrakRenderOptions where
  hardbreaks : Bool
  github_pre_lang : Bool
  width : Nat
  raw_html : Bool
  escape : Bool
deriving DecidableEq, Repr

/-- `comrak::ComrakOptions`. -/
structure ComrakOptions where
  extension : ComrakExtensionOptions
  parse : ComrakParseOptions
  render : ComrakRenderOptions
deriving DecidableEq, Repr

/-- `ComrakOptions::default()`: every extension off, no header ids, no
front-matter delimiter, raw-HTML passthrough off. -/
def comrakDefaults : ComrakOptions :=
  { extension :=
      { strikethrough := false, tagfilter := false, table := false, autolink := false
        tasklist := false, superscript := false, header_ids := none, footnotes := false
        description_lists := false, front_matter_delimiter := none }
    parse := { smart := false, default_info_string := none }
    render :=
      { hardbreaks := false, github_pre_lang := false, width := 0, raw_html := false
        escape := false } }

/-- The options value built inside `blog` (main.rs:132-145):
`ComrakOptions::default()` with the extension block replaced wholesale
and `render.unsafe_` (raw-HTML passthrough) switched on. -/
def blogOptions : ComrakOptions :=
  { comrakDefaults with
    extension :=
      { strikethrough := true, tagfilter := false, table := true, autolink := true
        tasklist := true, superscript := false, header_ids := some "#", footnotes := false
        description_lists := false, front_matter_delimiter := none }
    render := { comrakDefaults.render with raw_html := true } }

/-- The options value built inside `get_blog` (main.rs:202-215),
transcribed separately from its own source lines. -/
def getBlogOptions : ComrakOptions :=
  { comrakDefaults with
    extension :=
      { strikethrough := true, tagfilter := false, table := true, autolink := true
        tasklist := true, superscript := false, header_ids := some "#", footnotes := false
        description_lists := false, front_matter_delimiter := none }
    render := { comrakDefaults.render with raw_html := true } }

/-- The external libraries the two routes call, as explicit parameters:
`MetaData::parse` (returning the parsed key/value map and the remaining
body, or failing), and comrak's arena allocator / `parse_document` /
`format_html`.  `format_html` writes UTF-8 into a growable buffer and
cannot fail, so it is total here; `Arena::new()` is `newArena`. -/
structure Deps (Node : Type) where
  meta_parse : MetaData → Option (List (String × MetaValue) × String)
  newArena : List Node
  parse_document : List Node → String → ComrakOptions → Node × List Node
  format_html : Node → ComrakOptions → String

/-- The `MetaData` value both routes construct for a document's content
(main.rs:101-108, 186-193): required fields `title`, `tags`, `date`,
`blurb`, with `tags` marked array-typed. -/
def mkMeta (content : String) : MetaData :=
  { content
    required := ["title", "tags", "date", "blurb"]
    type_mark := [("tags", "array")] }

/-- Rust `str::replace(pat, "")` for a single-character pattern: every
occurrence of the character is removed (main.rs:113 strips `'`,
main.rs:123 strips `"`). -/
def stripChar (c : Char) (s : String) : String :=
  String.mk (s.data.filter (fun x => x ≠ c))

/-- Rust `str::replace(".md", "")` scanning left to right and removing
every (non-overlapping) occurrence of `.md` — not only a trailing
suffix (main.rs:156). -/
def stripMd : List Char → List Char
  | '.' :: 'm' :: 'd' :: rest => stripMd rest
  | c :: rest => c :: stripMd rest
  | [] => []

/-- String-level wrapper for `stripMd`. -/
def stripMdStr (s : String) : String :=
  String.mk (stripMd s.data)

/-- The rendering step both routes perform (main.rs:147-151, 217-221):
a fresh `Arena::new()`, `parse_document` on it, then `format_html` of
the resulting root node.  No state survives the call. -/
def renderMarkdown {Node : Type} (D : Deps Node) (opts : ComrakOptions)
    (text : String) : String :=
  let arena := D.newArena
  let root := (D.parse_document arena text opts).1
  D.format_html root opts

/-- One iteration of the `Posts::iter().map(...)` closure in `blog`
(main.rs:94-160) for a stored file `(filename, content)`:
`meta.parse().unwrap()` and the `HashMap` indexing panics are `none`;
wrong-shaped field values fall to the wildcard arms, producing `""` or
`[]`; the blurb is double-quote-stripped and rendered with
`blogOptions`; the slug removes every `.md` occurrence. -/
def buildPost {Node : Type} (D : Deps Node) (filename content : String) :
    Option Post := do
  let (parsed_meta, _) ← D.meta_parse (mkMeta content)
  let titleV ← List.lookup "title" parsed_meta
  let title := match titleV with
    | .str t => stripChar '\'' t
    | _ => ""
  let dateV ← List.lookup "date" parsed_meta
  let date := match dateV with
    | .str d => d
    | _ => ""
  let blurbV ← List.lookup "blurb" parsed_meta
  let blurb := match blurbV with
    | .str b => stripChar '"' b
    | _ => ""
  let tagsV ← List.lookup "tags" parsed_meta
  let tags := match tagsV with
    | .arr t => t
    | _ => []
  let html := renderMarkdown D blogOptions blurb
  pure { date, title, slug := stripMdStr filename, blurb := html, tags }

/-- Rust's `Iterator::map(..).collect()` where the closure may panic:
the first panicking element aborts the whole traversal. -/
def mapPanics {α β : Type} (f : α → Option β) : List α → Option (List β)
  | [] => some []
  | a :: as =>
    match f a with
    | none => none
    | some b => (mapPanics f as).map (fun bs => b :: bs)

/-- The unsorted `post_list` of `blog` (main.rs:93-161), built over the
content store — an association list from embedded filename to file
content (RustEmbed's `Posts`), in iteration order. -/
def blogPosts {Node : Type} (D : Deps Node) (store : List (String × String)) :
    Option (List Post) :=
  mapPanics (fun fc => buildPost D fc.1 fc.2) store

/-- A proleptic Gregorian calendar date, the payload of a parsed
`chrono::NaiveDate`. -/
structure Date where
  year : Nat
  month : Nat
  day : Nat
deriving DecidableEq, Repr

/-- Gregorian leap-year rule (as in chrono). -/
def isLeapYear (y : Nat) : Bool :=
  (y % 4 = 0 && y % 100 ≠ 0) || y % 400 = 0

/-- Number of days of month `m` in year `y`. -/
def daysInMonth (y m : Nat) : Nat :=
  if m = 2 then (if isLeapYear y then 29 else 28)
  else if m = 4 ∨ m = 6 ∨ m = 9 ∨ m = 11 then 30
  else 31

/-- Split a character list at each `'-'` (every separator splits; no
empty-segment collapsing), for reading the `%Y-%m-%d` shape. -/
def splitDash (acc : List Char) : List Char → List (List Char)
  | [] => [acc.reverse]
  | c :: rest =>
    if c = '-' then acc.reverse :: splitDash [] rest
    else splitDash (c :: acc) rest

/-- Digits-to-number accumulator. -/
def digitsToNat (l : List Char) : Nat :=
  l.foldl (fun n c => n * 10 + (c.toNat - '0'.toNat)) 0

/-- A run of `minLen` to `maxLen` ASCII digits, read as a `Nat`. -/
def parseNatField (minLen maxLen : Nat) (l : List Char) : Option Nat :=
  if minLen ≤ l.length ∧ l.length ≤ maxLen ∧ l.all Char.isDigit then
    some (digitsToNat l)
  else none

/-- Modelled from `chrono::NaiveDate::parse_from_str(s, "%Y-%m-%d")`
(main.rs:164-165), the fixed `YYYY-MM-DD` format of the spec: three
dash-separated digit runs (year at least one digit, month and day one
or two digits, matching chrono's tolerance for unpadded numerics; the
input must be fully consumed), then calendar validation.  Signed years
and chrono's astronomical year bound are outside the model: every date
this development touches is an unsigned common-era date. -/
def parseDate (s : String) : Option Date :=
  match splitDash [] s.data with
  | [ys, ms, ds] => do
    let y ← parseNatField 1 6 ys
    let m ← parseNatField 1 2 ms
    let d ← parseNatField 1 2 ds
    if 1 ≤ m ∧ m ≤ 12 ∧ 1 ≤ d ∧ d ≤ daysInMonth y m then
      pure { year := y, month := m, day := d }
    else none
  | _ => none

/-- `NaiveDate`'s total order restricted to valid dates: chronological,
i.e. lexicographic on (year, month, day) — a comparison of calendar
dates, not of strings. -/
def dateLe (a b : Date) : Bool :=
  decide (a.year < b.year ∨
    (a.year = b.year ∧ (a.month < b.month ∨
      (a.month = b.month ∧ a.day ≤ b.day))))

theorem dateLe_total (a b : Date) : dateLe a b = true ∨ dateLe b a = true := by
  simp only [dateLe, decide_eq_true_eq]
  omega

theorem dateLe_trans (a b c : Date) (h1 : dateLe a b = true)
    (h2 : dateLe b c = true) : dateLe a c = true := by
  simp only [dateLe, decide_eq_true_eq] at h1 h2 ⊢
  omega

/-- The comparator passed to `post_list.sort_by` (main.rs:163-167):
`date_b.cmp(&date_a)`, i.e. keyed posts in descending date order. -/
def postOrder (a b : Date × Post) : Prop :=
  dateLe b.1 a.1 = true

instance : DecidableRel postOrder := fun a b =>
  inferInstanceAs (Decidable (dateLe b.1 a.1 = true))

instance : IsTotal (Date × Post) postOrder :=
  ⟨fun a b => (dateLe_total b.1 a.1).imp id id⟩

instance : IsTrans (Date × Post) postOrder :=
  ⟨fun _ _ _ h1 h2 => dateLe_trans _ _ _ h2 h1⟩

/-- `post_list.sort_by(..)` (main.rs:163-167).  The comparator parses
both dates with `.unwrap()`, so an unparseable date panics — but only
when the comparator runs at all: on a slice of length ≤ 1 Rust's
`sort_by` never invokes it, while on length ≥ 2 every element takes
part in at least one comparison.  The model therefore parses every key
exactly when the list has at least two posts, and sorts (stably, with
the same comparator) on the parsed keys. -/
def sortPosts (posts : List Post) : Option (List Post) :=
  if posts.length ≤ 1 then some posts
  else
    match mapPanics (fun p => (parseDate p.date).map (fun dt => (dt, p))) posts with
    | none => none
    | some keyed => some ((List.insertionSort postOrder keyed).map Prod.snd)

/-- The `blog` route (main.rs:91-176), i.e. the spec's `build_index`:
build one `Post` per stored document, then sort by date descending.
Only the template's `posts` payload is modelled; `title`/`year`/`path`/
`version` are constants or ambient process values outside the core. -/
def blog {Node : Type} (D : Deps Node) (store : List (String × String)) :
    Option (List Post) :=
  match blogPosts D store with
  | none => none
  | some post_list => sortPosts post_list

/-- The hit path of `get_blog` (main.rs:183-237): extract the metadata
and body with `.unwrap()`, take the title verbatim from the `String`
arm (no quote stripping here), render the body with `getBlogOptions`. -/
def resolveContent {Node : Type} (D : Deps Node) (content : String) :
    Option PostDetail := do
  let (parsed_meta, body) ← D.meta_parse (mkMeta content)
  let titleV ← List.lookup "title" parsed_meta
  let title := match titleV with
    | .str t => t
    | _ => ""
  let html := renderMarkdown D getBlogOptions body
  pure { title, post := html }

/-- The `get_blog` route (main.rs:178-239), i.e. the spec's
`resolve(slug)`: look up `slug + ".md"` in the store; a miss is
`Err(Status::NotFound)`; a hit extracts and renders (and may panic). -/
def get_blog {Node : Type} (D : Deps Node) (store : List (String × String))
    (file : String) : Option ResolveResult :=
  let filename := file ++ ".md"
  match List.lookup filename store with
  | none => some .notFound
  | some content => (resolveContent D content).map .ok

/-- Whether byte `b` is a UTF-8 continuation byte (`0x80..=0xBF`). -/
def isCont (b : Nat) : Bool :=
  0x80 ≤ b && b ≤ 0xBF

/-- Modelled from `String::from_utf8` (main.rs:99, 184): strict RFC 3629
UTF-8 decoding of a byte list — overlong encodings, surrogate code
points, and code points beyond `U+10FFFF` are rejected, exactly the
sequences Rust's validator rejects. -/
def utf8DecodeAux : List Nat → Option (List Char)
  | [] => some []
  | b :: rest =>
    if b < 0x80 then
      (utf8DecodeAux rest).map (fun cs => Char.ofNat b :: cs)
    else if 0xC2 ≤ b ∧ b ≤ 0xDF then
      match rest with
      | c1 :: rest2 =>
        if isCont c1 then
          (utf8DecodeAux rest2).map
            (fun cs => Char.ofNat ((b - 0xC0) * 0x40 + (c1 - 0x80)) :: cs)
        else none
      | _ => none
    else if 0xE0 ≤ b ∧ b ≤ 0xEF then
      match rest with
      | c1 :: c2 :: rest2 =>
        let lo1 := if b = 0xE0 then 0xA0 else 0x80
        let hi1 := if b = 0xED then 0x9F else 0xBF
        if (lo1 ≤ c1 ∧ c1 ≤ hi1) ∧ isCont c2 then
          (utf8DecodeAux rest2).map
            (fun cs =>
              Char.ofNat ((b - 0xE0) * 0x1000 + (c1 - 0x80) * 0x40 + (c2 - 0x80)) :: cs)
        else none
      | _ => none
    else if 0xF0 ≤ b ∧ b ≤ 0xF4 then
      match rest with
      | c1 :: c2 :: c3 :: rest2 =>
        let lo1 := if b = 0xF0 then 0x90 else 0x80
        let hi1 := if b = 0xF4 then 0x8F else 0xBF
        if (lo1 ≤ c1 ∧ c1 ≤ hi1) ∧ isCont c2 ∧ isCont c3 then
          (utf8DecodeAux rest2).map
            (fun cs =>
              Char.ofNat ((b - 0xF0) * 0x40000 + (c1 - 0x80) * 0x1000 +
                (c2 - 0x80) * 0x40 + (c3 - 0x80)) :: cs)
        else none
      | _ => none
    else none

/-- `String::from_utf8` on a document's raw bytes. -/
def utf8Decode (bs : List Nat) : Option String :=
  (utf8DecodeAux bs).map String.mk

/-- One `blog`-closure iteration over raw embedded bytes
(main.rs:98-99 before the metadata work): `String::from_utf8(..)
.unwrap()` panics on invalid UTF-8, then `buildPost` runs. -/
def buildPostBytes {Node : Type} (D : Deps Node) (filename : String)
    (bytes : List Nat) : Option Post :=
  match utf8Decode bytes with
  | none => none
  | some content => buildPost D filename content

/-- The `blog` route over the raw embedded byte store. -/
def blogBytes {Node : Type} (D : Deps Node)
    (store : List (String × List Nat)) : Option (List Post) :=
  match mapPanics (fun fc => buildPostBytes D fc.1 fc.2) store with
  | none => none
  | some post_list => sortPosts post_list

/-- The `get_blog` route over the raw embedded byte store
(main.rs:184: the hit path first decodes the bytes, panicking on
invalid UTF-8). -/
def get_blogBytes {Node : Type} (D : Deps Node)
    (store : List (String × List Nat)) (file : String) :
    Option ResolveResult :=
  let filename := file ++ ".md"
  match List.lookup filename store with
  | none => some .notFound
  | some bytes =>
    (match utf8Decode bytes with
      | none => none
      | some content => resolveContent D content).map .ok

/-- The pieces of `syntect` used by `utils::highlight_text`
(utils.rs:9-27), as explicit parameters: syntax lookup by extension,
the plain-text fallback syntax, generator construction
(`ClassedHTMLGenerator::new_with_class_style` on the loaded default
syntax set), the per-line parser (whose `Err` is `none`), and
`finalize`. -/
structure Syntect (Syn St : Type) where
  find_syntax_by_extension : String → Option Syn
  plain_text : Syn
  init : Syn → St
  parse_line : St → String → Option St
  finalize : St → String

/-- `syntect::util::LinesWithEndings`: successive lines of the text,
each including its trailing newline; a final newline-less fragment is
kept, and an empty text yields no lines. -/
def linesWithEndingsAux (acc : List Char) : List Char → List (List Char)
  | [] => if acc.isEmpty then [] else [acc.reverse]
  | c :: rest =>
    if c = '\n' then (c :: acc).reverse :: linesWithEndingsAux [] rest
    else linesWithEndingsAux (c :: acc) rest

/-- String-level wrapper for `linesWithEndingsAux`. -/
def linesWithEndings (s : String) : List String :=
  (linesWithEndingsAux [] s.data).map String.mk

/-- The `for line in LinesWithEndings::from(&text)` loop of
`highlight_text` (utils.rs:19-24), threading the generator state; a
line whose parse errors aborts the loop. -/
def highlightLoop {Syn St : Type} (L : Syntect Syn St) (st : St) :
    List String → Option St
  | [] => some st
  | l :: ls =>
    match L.parse_line st l with
    | none => none
    | some st2 => highlightLoop L st2 ls

/-- `utils::highlight_text` (utils.rs:9-27): choose the syntax for the
language tag, falling back to plain text when the tag matches no known
syntax (`unwrap_or(find_syntax_plain_text())`); feed every line through
the generator; return `String::new()` if any line errored, otherwise
the finalized HTML. -/
def highlight_text {Syn St : Type} (L : Syntect Syn St)
    (text lang : String) : String :=
  let syn := (L.find_syntax_by_extension lang).getD L.plain_text
  match highlightLoop L (L.init syn) (linesWithEndings text) with
  | none => ""
  | some st => L.finalize st

/-! Helper lemmas about the traversal and sorting combinators. -/

theorem mapPanics_eq_some_of_mem {α β : Type} {f : α → Option β} :
    ∀ {l : List α} {r : List β}, mapPanics f l = some r →
      ∀ x ∈ l, ∃ y, f x = some y ∧ y ∈ r := by
  intro l
  induction l with
  | nil => intro r _ x hx; cases hx
  | cons a as ih =>
    intro r h x hx
    unfold mapPanics at h
    cases hfa : f a with
    | none => rw [hfa] at h; cases h
    | some b =>
      rw [hfa] at h
      cases hrest : mapPanics f as with
      | none => rw [hrest] at h; cases h
      | some bs =>
        rw [hrest] at h
        simp only [Option.map_some', Option.some_inj] at h
        subst h
        rcases List.mem_cons.mp hx with rfl | hx'
        · exact ⟨b, hfa, List.mem_cons_self b bs⟩
        · obtain ⟨y, hy, hyr⟩ := ih hrest x hx'
          exact ⟨y, hy, List.mem_cons_of_mem b hyr⟩

theorem mapPanics_mem_src {α β : Type} {f : α → Option β} :
    ∀ {l : List α} {r : List β}, mapPanics f l = some r →
      ∀ y ∈ r, ∃ x, x ∈ l ∧ f x = some y := by
  intro l
  induction l with
  | nil =>
    intro r h y hy
    unfold mapPanics at h
    simp only [Option.some_inj] at h
    subst h; cases hy
  | cons a as ih =>
    intro r h y hy
    unfold mapPanics at h
    cases hfa : f a with
    | none => rw [hfa] at h; cases h
    | some b =>
      rw [hfa] at h
      cases hrest : mapPanics f as with
      | none => rw [hrest] at h; cases h
      | some bs =>
        rw [hrest] at h
        simp only [Option.map_some', Option.some_inj] at h
        subst h
        rcases List.mem_cons.mp hy with rfl | hy'
        · exact ⟨a, List.mem_cons_self a as, hfa⟩
        · obtain ⟨x, hx, hfx⟩ := ih hrest y hy'
          exact ⟨x, List.mem_cons_of_mem a hx, hfx⟩

theorem mapPanics_eq_none_of_mem {α β : Type} {f : α → Option β} {l : List α}
    (x : α) (hx : x ∈ l) (hfx : f x = none) : mapPanics f l = none := by
  induction l with
  | nil => cases hx
  | cons a as ih =>
    unfold mapPanics
    rcases List.mem_cons.mp hx with rfl | hx'
    · rw [hfx]
    · cases hfa : f a with
      | none => rfl
      | some b => rw [ih hx']; rfl

theorem buildPost_slug {Node : Type} (D : Deps Node) {fn c : String} {p : Post}
    (h : buildPost D fn c = some p) : p.slug = stripMdStr fn := by
  unfold buildPost at h
  cases hm : D.meta_parse (mkMeta c) with
  | none => rw [hm] at h; cases h
  | some pr =>
    obtain ⟨m, rest⟩ := pr
    rw [hm] at h
    simp only [Option.bind_eq_bind, Option.some_bind] at h
    cases ht : List.lookup "title" m with
    | none => rw [ht] at h; cases h
    | some tv =>
      rw [ht] at h
      simp only [Option.some_bind] at h
      cases hd : List.lookup "date" m with
      | none => rw [hd] at h; cases h
      | some dv =>
        rw [hd] at h
        simp only [Option.some_bind] at h
        cases hb : List.lookup "blurb" m with
        | none => rw [hb] at h; cases h
        | some bv =>
          rw [hb] at h
          simp only [Option.some_bind] at h
          cases hg : List.lookup "tags" m with
          | none => rw [hg] at h; cases h
          | some gv =>
            rw [hg] at h
            simp only [Option.some_bind, Option.pure_def, Option.some_inj] at h
            subst h
            rfl

theorem sortPosts_mem {ps out : List Post} (h : sortPosts ps = some out) :
    ∀ p ∈ ps, p ∈ out := by
  unfold sortPosts at h
  by_cases hlen : ps.length ≤ 1
  · rw [if_pos hlen] at h
    simp only [Option.some_inj] at h
    subst h; exact fun p hp => hp
  · rw [if_neg hlen] at h
    cases hk : mapPanics (fun p => (parseDate p.date).map (fun dt => (dt, p))) ps with
    | none => rw [hk] at h; cases h
    | some keyed =>
      rw [hk] at h
      simp only [Option.some_inj] at h
      subst h
      intro p hp
      obtain ⟨y, hy, hyk⟩ := mapPanics_eq_some_of_mem hk p hp
      cases hpd : parseDate p.date with
      | none => rw [hpd] at hy; cases hy
      | some dt =>
        rw [hpd] at hy
        simp only [Option.map_some', Option.some_inj] at hy
        subst hy
        exact List.mem_map_of_mem Prod.snd ((List.mem_insertionSort postOrder).2 hyk)

/-- Every element of a successfully keyed list carries the parse of its
own post's date. -/
theorem keyed_parse {ps : List Post} {keyed : List (Date × Post)}
    (hk : mapPanics (fun p => (parseDate p.date).map (fun dt => (dt, p))) ps = some keyed) :
    ∀ x ∈ keyed, parseDate x.2.date = some x.1 := by
  intro x hx
  obtain ⟨p, _, hfp⟩ := mapPanics_mem_src hk x hx
  cases hpd : parseDate p.date with
  | none => rw [hpd] at hfp; cases hfp
  | some dt =>
    rw [hpd] at hfp
    simp only [Option.map_some', Option.some_inj] at hfp
    subst hfp
    exact hpd

/-! Concrete external behaviours used to exercise the theorems on
closed inputs.  `toyDeps f` is a `Deps Unit` whose metadata extractor is
`f` and whose renderer returns `"H"` for every input. -/

def toyDeps (f : MetaData → Option (List (String × MetaValue) × String)) :
    Deps Unit where
  meta_parse := f
  newArena := []
  parse_document := fun a _ _ => ((), a)
  format_html := fun _ _ => "H"

/-- A well-formed four-field metadata map whose date is the document's
own content, so stores can carry distinct dates. -/
def dateMeta (md : MetaData) :
    Option (List (String × MetaValue) × String) :=
  some ([("title", .str "T"), ("tags", .arr ["a"]),
         ("date", .str md.content), ("blurb", .str "B")], "body")

/-- C6: blurb rendering in `build_index` and full-body rendering in
`resolve` use one identical fixed renderer configuration —
strikethrough, tables, autolink, task lists and header-id anchors with
prefix `"#"` on; superscript, footnotes, description lists and
front-matter delimiter parsing off; raw-HTML (`unsafe_`) passthrough
on.  `blogOptions` and `getBlogOptions` are the two configuration
values transcribed from their separate source blocks; `blog` renders
every blurb with the former and `get_blog` every body with the
latter. -/
theorem renderer_config_identical_and_fixed :
    blogOptions = getBlogOptions ∧
    blogOptions.extension.strikethrough = true ∧
    blogOptions.extension.table = true ∧
    blogOptions.extension.autolink = true ∧
    blogOptions.extension.tasklist = true ∧
    blogOptions.extension.header_ids = some "#" ∧
    blogOptions.extension.superscript = false ∧
    blogOptions.extension.footnotes = false ∧
    blogOptions.extension.description_lists = false ∧
    blogOptions.extension.front_matter_delimiter = none ∧
    blogOptions.render.raw_html = true :=
  ⟨rfl, rfl, rfl, rfl, rfl, rfl, rfl, rfl, rfl, rfl, rfl⟩

/-- The outputs of a sequence of render calls, in call order. -/
def renderSeq {Node : Type} (D : Deps Node) (opts : ComrakOptions)
    (texts : List String) : List String :=
  texts.map (renderMarkdown D opts)

/-- C7: rendering is deterministic — the same markdown rendered twice
yields identical HTML both times, and in any sequence of render calls
each call's output depends only on its own input, never on the calls
before or after it (each call builds its arena afresh from
`Deps.newArena`; no state crosses calls in the embedded pipeline). -/
theorem render_deterministic :
    ∀ (Node : Type) (D : Deps Node) (opts : ComrakOptions)
      (before after : List String) (t : String),
      renderSeq D opts [t, t] =
        [renderMarkdown D opts t, renderMarkdown D opts t] ∧
      renderSeq D opts (before ++ t :: after) =
        renderSeq D opts before ++
          renderMarkdown D opts t :: renderSeq D opts after := by
  intro Node D opts before after t
  exact ⟨rfl, by simp [renderSeq]⟩

/-- C2: `resolve(slug)` looks up `slug + ".md"` in the store and
returns `NotFound` exactly when that filename is absent; on a hit with
well-formed front matter (the extractor succeeds and yields a
string-typed title) it returns a detail whose `title` is exactly the
extracted front-matter title. -/
theorem resolve_lookup_contract {Node : Type} (D : Deps Node)
    (store : List (String × String)) (slug : String) :
    (get_blog D store slug = some .notFound ↔
      List.lookup (slug ++ ".md") store = none) ∧
    (∀ content m body t,
      List.lookup (slug ++ ".md") store = some content →
      D.meta_parse (mkMeta content) = some (m, body) →
      List.lookup "title" m = some (.str t) →
      ∃ d, get_blog D store slug = some (.ok d) ∧ d.title = t) := by
  constructor
  · cases h : List.lookup (slug ++ ".md") store with
    | none => simp [get_blog, h]
    | some content =>
      simp only [get_blog, h, reduceCtorEq, iff_false]
      intro hc
      cases hres : resolveContent D content with
      | none => rw [hres] at hc; cases hc
      | some d => rw [hres] at hc; cases hc
  · intro content m body t hlook hparse htitle
    refine ⟨⟨t, renderMarkdown D getBlogOptions body⟩, ?_, rfl⟩
    simp only [get_blog, resolveContent, hlook, hparse, Option.bind_eq_bind,
      Option.some_bind]
    rw [htitle]
    simp only [Option.some_bind, Option.pure_def, Option.map_some']

/-- Store and extractor for the C2 witness. -/
def c2Deps : Deps Unit := toyDeps dateMeta

theorem resolve_lookup_contract_witness :
    (get_blog c2Deps [("a.md", "2021-01-01")] "zz" = some .notFound) ∧
    (∃ d, get_blog c2Deps [("a.md", "2021-01-01")] "a" = some (.ok d) ∧
      d.title = "T") :=
  ⟨(resolve_lookup_contract c2Deps [("a.md", "2021-01-01")] "zz").1.mpr
      (by decide),
   (resolve_lookup_contract c2Deps [("a.md", "2021-01-01")] "a").2
      "2021-01-01"
      [("title", .str "T"), ("tags", .arr ["a"]),
       ("date", .str "2021-01-01"), ("blurb", .str "B")]
      "body" "T" (by decide) rfl (by decide)⟩

/-- C1: whenever `build_index` returns a listing (in particular for
every content set in which each document's date parses under the fixed
`YYYY-MM-DD` format — otherwise the route panics and there is no
listing), adjacent posts are in descending calendar-date order: for
each adjacent pair the parsed date of the earlier element is ≥ the
parsed date of the later one, dates compared as calendar dates
(`dateLe`), not as strings. -/
theorem build_index_sorted_by_date_desc {Node : Type} (D : Deps Node)
    (store : List (String × String)) (out : List Post)
    (h : blog D store = some out) :
    out.Chain' (fun p q => ∃ dp dq, parseDate p.date = some dp ∧
      parseDate q.date = some dq ∧ dateLe dq dp = true) := by
  unfold blog at h
  cases hps : blogPosts D store with
  | none => rw [hps] at h; cases h
  | some ps =>
    rw [hps] at h
    dsimp only at h
    unfold sortPosts at h
    by_cases hlen : ps.length ≤ 1
    · rw [if_pos hlen] at h
      simp only [Option.some_inj] at h
      subst h
      match ps, hlen with
      | [], _ => exact List.chain'_nil
      | [p], _ => exact List.chain'_singleton p
    · rw [if_neg hlen] at h
      cases hk : mapPanics (fun p => (parseDate p.date).map (fun dt => (dt, p))) ps with
      | none => rw [hk] at h; cases h
      | some keyed =>
        rw [hk] at h
        simp only [Option.some_inj] at h
        subst h
        have hdates := keyed_parse hk
        have hsorted : (List.insertionSort postOrder keyed).Pairwise postOrder :=
          List.sorted_insertionSort postOrder keyed
        have hpw : (List.insertionSort postOrder keyed).Pairwise
            (fun a b => ∃ dp dq, parseDate a.2.date = some dp ∧
              parseDate b.2.date = some dq ∧ dateLe dq dp = true) := by
          refine hsorted.imp_of_mem ?_
          intro a b ha hb hr
          exact ⟨a.1, b.1,
            hdates a ((List.mem_insertionSort postOrder).1 ha),
            hdates b ((List.mem_insertionSort postOrder).1 hb), hr⟩
        exact (List.chain'_map Prod.snd).2 hpw.chain'

/-- Extractor and store for the C1 witness: two posts with distinct
parseable dates, stored in ascending order so that the sort must
reverse them. -/
def c1Deps : Deps Unit := toyDeps dateMeta

theorem build_index_sorted_by_date_desc_witness :
    List.Chain' (fun p q => ∃ dp dq, parseDate p.date = some dp ∧
      parseDate q.date = some dq ∧ dateLe dq dp = true)
      ([⟨"2022-06-15", "T", "b", "H", ["a"]⟩,
        ⟨"2021-01-01", "T", "a", "H", ["a"]⟩] : List Post) :=
  build_index_sorted_by_date_desc c1Deps
    [("a.md", "2021-01-01"), ("b.md", "2022-06-15")]
    ([⟨"2022-06-15", "T", "b", "H", ["a"]⟩,
      ⟨"2021-01-01", "T", "a", "H", ["a"]⟩] : List Post)
    (by decide)

/-- Closed form of a successful `blog`-closure iteration: when the
extractor succeeds and all four required keys are present, the
assembled `Post` is exactly the source's field-by-field construction
(wildcard arms included). -/
theorem buildPost_eq {Node : Type} (D : Deps Node) (fn c : String)
    {m : List (String × MetaValue)} {rest : String} {tv dv bv gv : MetaValue}
    (hparse : D.meta_parse (mkMeta c) = some (m, rest))
    (ht : List.lookup "title" m = some tv)
    (hd : List.lookup "date" m = some dv)
    (hb : List.lookup "blurb" m = some bv)
    (hg : List.lookup "tags" m = some gv) :
    buildPost D fn c = some
      { date := match dv with | .str d => d | _ => ""
        title := match tv with | .str t => stripChar '\'' t | _ => ""
        slug := stripMdStr fn
        blurb := renderMarkdown D blogOptions
          (match bv with | .str b => stripChar '"' b | _ => "")
        tags := match gv with | .arr g => g | _ => [] } := by
  simp only [buildPost, hparse, Option.bind_eq_bind, Option.some_bind, ht, hd,
    hb, hg, Option.pure_def]
  cases tv <;> cases dv <;> cases bv <;> cases gv <;> rfl

/-- An extractor embodying `markdown_meta_parser`'s failure on a
document whose front matter is missing a required field (here `tags`):
`MetaData::parse` returns `Err`, which both routes `.unwrap()`. -/
def c3Deps : Deps Unit := toyDeps (fun _ => none)

/-- An extractor that succeeds with a string-typed but unparseable
date field. -/
def c3bDeps : Deps Unit := toyDeps (fun _ =>
  some ([("title", .str "T"), ("tags", .arr []),
         ("date", .str "not-a-date"), ("blurb", .str "B")], ""))

/-- C3 counterexample: when extraction fails, neither route returns an
explicit failure result to its caller — each `.unwrap()`s and panics,
yielding no result at all (`none`; the Rust return types
`BlogTemplate` and `Result<_, Status>` have no `ExtractionError` or
`DateParseError` variant).  Moreover, for a single-post store whose
date is unparseable, `build_index` does not fail in any way: the sort
comparator never runs, and the route returns a fully-populated listing
containing the bad date string — not a `DateParseError`. -/
theorem explicit_failure_result_counterexample :
    blog c3Deps [("a.md", "doc-missing-tags")] = none ∧
    get_blog c3Deps [("a.md", "doc-missing-tags")] "a" = none ∧
    blog c3bDeps [("a.md", "doc-with-bad-date")] =
      some [⟨"not-a-date", "T", "a", "H", []⟩] := by
  refine ⟨rfl, rfl, by decide⟩

/-- C3 (amended): on malformed content the core fails by panicking —
it yields no result to its caller (it does not return a
partially-populated result, and there is no silent recovery, but the
failure is a process abort rather than an explicit `ExtractionError` /
`DateParseError` value): `build_index` panics when extraction fails on
any stored document, and when any assembled post's date fails to parse
provided the listing holds at least two posts (with fewer the
comparator never runs); `resolve` panics when extraction fails on the
matching document (it never parses the date at all). -/
theorem malformed_content_panics :
    (∀ (Node : Type) (D : Deps Node) (store : List (String × String)) fn c,
      (fn, c) ∈ store → D.meta_parse (mkMeta c) = none →
      blog D store = none) ∧
    (∀ (Node : Type) (D : Deps Node) (store : List (String × String)) ps p,
      blogPosts D store = some ps → 2 ≤ ps.length → p ∈ ps →
      parseDate p.date = none → blog D store = none) ∧
    (∀ (Node : Type) (D : Deps Node) (store : List (String × String)) slug c,
      List.lookup (slug ++ ".md") store = some c →
      D.meta_parse (mkMeta c) = none → get_blog D store slug = none) := by
  refine ⟨?_, ?_, ?_⟩
  · intro Node D store fn c hmem hparse
    have hbp : buildPost D fn c = none := by
      unfold buildPost
      rw [hparse]
      rfl
    have : blogPosts D store = none :=
      mapPanics_eq_none_of_mem (fn, c) hmem (by exact hbp)
    unfold blog
    rw [this]
  · intro Node D store ps p hps hlen hp hdate
    unfold blog
    rw [hps]
    dsimp only
    unfold sortPosts
    rw [if_neg (by omega)]
    have : mapPanics (fun p => (parseDate p.date).map (fun dt => (dt, p))) ps = none := by
      refine mapPanics_eq_none_of_mem p hp ?_
      rw [hdate]
      rfl
    rw [this]
  · intro Node D store slug c hlook hparse
    have hrc : resolveContent D c = none := by
      unfold resolveContent
      rw [hparse]
      rfl
    simp [get_blog, hlook, hrc]

/-- Extractor/store pair for the second conjunct of the C3 witness:
two posts extract fine but the second date is unparseable. -/
def c3wDeps : Deps Unit := toyDeps dateMeta

theorem malformed_content_panics_witness :
    blog c3Deps [("a.md", "doc-missing-tags")] = none ∧
    blog c3wDeps [("a.md", "2021-01-01"), ("b.md", "oops")] = none ∧
    get_blog c3Deps [("a.md", "doc-missing-tags")] "a" = none :=
  ⟨malformed_content_panics.1 Unit c3Deps _ "a.md" "doc-missing-tags"
      (by decide) rfl,
   malformed_content_panics.2.1 Unit c3wDeps _
      [⟨"2021-01-01", "T", "a", "H", ["a"]⟩, ⟨"oops", "T", "b", "H", ["a"]⟩]
      (⟨"oops", "T", "b", "H", ["a"]⟩ : Post)
      (by decide) (by decide) (by decide) (by decide),
   malformed_content_panics.2.2 Unit c3Deps _ "a" "doc-missing-tags"
      (by decide) rfl⟩

/-- An extractor whose extracted title contains a single quote. -/
def c4Deps : Deps Unit := toyDeps (fun _ =>
  some ([("title", .str "it's"), ("tags", .arr []),
         ("date", .str "2021-01-01"), ("blurb", .str "B")], "body"))

/-- C4 counterexample: `resolve` returns the extracted title verbatim —
the single quote is NOT stripped there (main.rs:198 has no
`.replace("'", "")`, unlike main.rs:113 in `build_index`), so the
claim's "every operation strips single quotes from the title" fails on
the detail page. -/
theorem resolve_title_unstripped_counterexample :
    get_blog c4Deps [("p.md", "doc")] "p" =
      some (.ok { title := "it's", post := "H" }) ∧
    stripChar '\'' "it's" = "its" ∧ ("it's" : String) ≠ "its" := by
  refine ⟨rfl, by decide, by decide⟩

/-- C4 (amended): the quote post-processing happens in `build_index`
only — there the title has all single quotes stripped and the blurb
passed to the renderer has all double quotes stripped — while
`resolve` returns the extracted title unmodified and renders the body
unmodified. -/
theorem quote_stripping_build_index_only :
    (∀ (Node : Type) (D : Deps Node) (fn c : String) m rest t dv b gv,
      D.meta_parse (mkMeta c) = some (m, rest) →
      List.lookup "title" m = some (.str t) →
      List.lookup "date" m = some dv →
      List.lookup "blurb" m = some (.str b) →
      List.lookup "tags" m = some gv →
      ∃ p, buildPost D fn c = some p ∧ p.title = stripChar '\'' t ∧
        p.blurb = renderMarkdown D blogOptions (stripChar '"' b)) ∧
    (∀ (Node : Type) (D : Deps Node) (store : List (String × String))
        (slug c : String) m body t,
      List.lookup (slug ++ ".md") store = some c →
      D.meta_parse (mkMeta c) = some (m, body) →
      List.lookup "title" m = some (.str t) →
      get_blog D store slug =
        some (.ok { title := t, post := renderMarkdown D getBlogOptions body })) := by
  constructor
  · intro Node D fn c m rest t dv b gv hparse htitle hdate hblurb htags
    exact ⟨_, buildPost_eq D fn c hparse htitle hdate hblurb htags, rfl, rfl⟩
  · intro Node D store slug c m body t hlook hparse htitle
    simp only [get_blog, resolveContent, hlook, hparse, Option.bind_eq_bind,
      Option.some_bind]
    rw [htitle]
    simp only [Option.some_bind, Option.pure_def, Option.map_some']

theorem quote_stripping_build_index_only_witness :
    (∃ p, buildPost c4Deps "p.md" "doc" = some p ∧
      p.title = stripChar '\'' "it's" ∧
      p.blurb = renderMarkdown c4Deps blogOptions (stripChar '"' "B")) ∧
    get_blog c4Deps [("p.md", "doc")] "p" =
      some (.ok { title := "it's",
                  post := renderMarkdown c4Deps getBlogOptions "body" }) :=
  ⟨quote_stripping_build_index_only.1 Unit c4Deps "p.md" "doc"
      [("title", .str "it's"), ("tags", .arr []),
       ("date", .str "2021-01-01"), ("blurb", .str "B")]
      "body" "it's" (.str "2021-01-01") "B" (.arr [])
      rfl (by decide) (by decide) (by decide) (by decide),
   quote_stripping_build_index_only.2 Unit c4Deps [("p.md", "doc")] "p" "doc"
      [("title", .str "it's"), ("tags", .arr []),
       ("date", .str "2021-01-01"), ("blurb", .str "B")]
      "body" "it's" (by decide) rfl (by decide)⟩

/-- The spec's slug rule, stated from the spec's words for comparison:
remove a trailing `.md` suffix and leave the rest of the filename
unchanged. -/
def sluggifySpec (filename : String) : String :=
  if filename.data.reverse.take 3 = ['d', 'm', '.'] then
    String.mk (filename.data.take (filename.data.length - 3))
  else filename

/-- A well-formed extractor for the C5 counterexample. -/
def c5Deps : Deps Unit := toyDeps dateMeta

/-- C5 counterexample: `main.rs:156` computes the slug with
`replace(".md", "")`, which removes EVERY occurrence of `.md`, not
only a trailing suffix: the stored filename `a.md.md` yields slug
`"a"`, while removing just the suffix would yield `"a.md"`. -/
theorem slug_suffix_counterexample :
    blog c5Deps [("a.md.md", "2021-01-01")] =
      some [⟨"2021-01-01", "T", "a", "H", ["a"]⟩] ∧
    sluggifySpec "a.md.md" = "a.md" ∧ ("a" : String) ≠ "a.md" := by
  refine ⟨by decide, by decide, by decide⟩

/-- C5 (amended): the slug of the post `build_index` produces for a
stored filename equals that filename with every occurrence of the
substring `.md` removed (`stripMdStr`, the left-to-right
non-overlapping removal performed by Rust's `replace`); this agrees
with trailing-suffix removal exactly when `.md` occurs nowhere else in
the filename. -/
theorem slug_removes_every_md_occurrence :
    ∀ (Node : Type) (D : Deps Node) (store : List (String × String)) out,
      blog D store = some out →
      ∀ fn c, (fn, c) ∈ store →
        ∃ p, p ∈ out ∧ buildPost D fn c = some p ∧ p.slug = stripMdStr fn := by
  intro Node D store out h fn c hmem
  unfold blog at h
  cases hps : blogPosts D store with
  | none => rw [hps] at h; cases h
  | some ps =>
    rw [hps] at h
    dsimp only at h
    obtain ⟨p, hbp, hpps⟩ := mapPanics_eq_some_of_mem hps (fn, c) hmem
    exact ⟨p, sortPosts_mem h p hpps, hbp, buildPost_slug D hbp⟩

theorem slug_removes_every_md_occurrence_witness :
    ∃ p, p ∈ ([⟨"2021-01-01", "T", "a", "H", ["a"]⟩] : List Post) ∧
      buildPost c5Deps "a.md.md" "2021-01-01" = some p ∧
      p.slug = stripMdStr "a.md.md" :=
  slug_removes_every_md_occurrence Unit c5Deps [("a.md.md", "2021-01-01")]
    ([⟨"2021-01-01", "T", "a", "H", ["a"]⟩] : List Post)
    (by decide) "a.md.md" "2021-01-01" (by decide)

/-- An extractor that succeeds but gives the `date` field an
array-typed value on one document and a proper date on the other. -/
def c9Deps : Deps Unit := toyDeps (fun md =>
  if md.content = "bad" then
    some ([("title", .str "T"), ("tags", .arr []),
           ("date", .arr ["2021"]), ("blurb", .str "B")], "")
  else
    some ([("title", .str "T"), ("tags", .arr []),
           ("date", .str "2021-01-01"), ("blurb", .str "B")], ""))

/-- C9 counterexample: with two stored documents, extraction
succeeding on both and one `date` field array-typed, the per-post
assembly silently substitutes `""` for that date — but `build_index`
as a whole then FAILS (panics in the sort comparator on the
unparseable `""`), contradicting the claim that it does not fail. -/
theorem wrong_typed_date_fails_listing_counterexample :
    blogPosts c9Deps [("a.md", "bad"), ("b.md", "good")] =
      some [⟨"", "T", "a", "H", []⟩, ⟨"2021-01-01", "T", "b", "H", []⟩] ∧
    blog c9Deps [("a.md", "bad"), ("b.md", "good")] = none := by
  refine ⟨by decide, by decide⟩

/-- C9 (amended): when extraction succeeds but a field has an
unexpected type (title, date or blurb not a scalar string, or tags not
an array), the per-post assembly in `build_index` does not fail — it
silently substitutes `""` for the scalar fields and `[]` for tags in
the resulting `PostSummary` — and a single-post listing is returned
whole despite the substitution; only a listing of two or more posts
subsequently panics on the empty substituted `date` when the sort
parses it. -/
theorem wrong_typed_fields_substituted :
    (∀ (Node : Type) (D : Deps Node) (fn c : String) m rest ta da ba gs,
      D.meta_parse (mkMeta c) = some (m, rest) →
      List.lookup "title" m = some (.arr ta) →
      List.lookup "date" m = some (.arr da) →
      List.lookup "blurb" m = some (.arr ba) →
      List.lookup "tags" m = some (.str gs) →
      buildPost D fn c = some
        { date := "", title := "", slug := stripMdStr fn,
          blurb := renderMarkdown D blogOptions "", tags := [] }) ∧
    (∀ (Node : Type) (D : Deps Node) (fn c : String) m rest ta da ba gs,
      D.meta_parse (mkMeta c) = some (m, rest) →
      List.lookup "title" m = some (.arr ta) →
      List.lookup "date" m = some (.arr da) →
      List.lookup "blurb" m = some (.arr ba) →
      List.lookup "tags" m = some (.str gs) →
      blog D [(fn, c)] = some
        [{ date := "", title := "", slug := stripMdStr fn,
           blurb := renderMarkdown D blogOptions "", tags := [] }]) := by
  have h1 : ∀ (Node : Type) (D : Deps Node) (fn c : String) m rest ta da ba gs,
      D.meta_parse (mkMeta c) = some (m, rest) →
      List.lookup "title" m = some (.arr ta) →
      List.lookup "date" m = some (.arr da) →
      List.lookup "blurb" m = some (.arr ba) →
      List.lookup "tags" m = some (.str gs) →
      buildPost D fn c = some
        { date := "", title := "", slug := stripMdStr fn,
          blurb := renderMarkdown D blogOptions "", tags := [] } := by
    intro Node D fn c m rest ta da ba gs hparse ht hd hb hg
    exact buildPost_eq D fn c hparse ht hd hb hg
  refine ⟨h1, ?_⟩
  intro Node D fn c m rest ta da ba gs hparse ht hd hb hg
  have hbp := h1 Node D fn c m rest ta da ba gs hparse ht hd hb hg
  unfold blog blogPosts
  unfold mapPanics
  rw [hbp]
  rfl

/-- An extractor giving every required field a wrong-typed value. -/
def c9wDeps : Deps Unit := toyDeps (fun _ =>
  some ([("title", .arr ["T"]), ("tags", .str "x"),
         ("date", .arr ["2021"]), ("blurb", .arr ["B"])], ""))

theorem wrong_typed_fields_substituted_witness :
    buildPost c9wDeps "a.md" "doc" = some
      { date := "", title := "", slug := stripMdStr "a.md",
        blurb := renderMarkdown c9wDeps blogOptions "", tags := [] } ∧
    blog c9wDeps [("a.md", "doc")] = some
      [{ date := "", title := "", slug := stripMdStr "a.md",
         blurb := renderMarkdown c9wDeps blogOptions "", tags := [] }] :=
  ⟨wrong_typed_fields_substituted.1 Unit c9wDeps "a.md" "doc"
      [("title", .arr ["T"]), ("tags", .str "x"),
       ("date", .arr ["2021"]), ("blurb", .arr ["B"])]
      "" ["T"] ["2021"] ["B"] "x"
      rfl (by decide) (by decide) (by decide) (by decide),
   wrong_typed_fields_substituted.2 Unit c9wDeps "a.md" "doc"
      [("title", .arr ["T"]), ("tags", .str "x"),
       ("date", .arr ["2021"]), ("blurb", .arr ["B"])]
      "" ["T"] ["2021"] ["B"] "x"
      rfl (by decide) (by decide) (by decide) (by decide)⟩

/-- C8: in `highlight_text`, a language tag matching no known syntax
(`find_syntax_by_extension` misses) falls back to the plain-text
syntax (`unwrap_or(find_syntax_plain_text())`), and — provided the
plain-text parser accepts every line, as syntect's does — the function
still feeds every line of the full text through the generator and
returns the finalized highlighted HTML, rather than failing. -/
theorem highlight_unknown_lang_falls_back :
    ∀ (Syn St : Type) (L : Syntect Syn St) (text lang : String),
      L.find_syntax_by_extension lang = none →
      (∀ st l, (L.parse_line st l).isSome) →
      ∃ st, highlightLoop L (L.init L.plain_text) (linesWithEndings text) =
          some st ∧
        highlight_text L text lang = L.finalize st := by
  intro Syn St L text lang hfind hok
  have hloop : ∀ (ls : List String) (st : St),
      ∃ st2, highlightLoop L st ls = some st2 := by
    intro ls
    induction ls with
    | nil => intro st; exact ⟨st, rfl⟩
    | cons l ls ih =>
      intro st
      cases hp : L.parse_line st l with
      | none =>
        have hs := hok st l
        rw [hp] at hs
        cases hs
      | some st2 =>
        obtain ⟨st3, h3⟩ := ih st2
        exact ⟨st3, by simp [highlightLoop, hp, h3]⟩
  obtain ⟨st, hst⟩ := hloop (linesWithEndings text) (L.init L.plain_text)
  refine ⟨st, hst, ?_⟩
  unfold highlight_text
  rw [hfind]
  simp only [Option.getD_none]
  rw [hst]

/-- A concrete highlighter for the C8 witness: no known syntaxes, and
a generator state that accumulates the lines it was fed. -/
def c8Lib : Syntect Unit (List String) where
  find_syntax_by_extension := fun _ => none
  plain_text := ()
  init := fun _ => []
  parse_line := fun st l => some (st ++ [l])
  finalize := fun st => String.join st

theorem highlight_unknown_lang_falls_back_witness :
    ∃ st, highlightLoop c8Lib (c8Lib.init c8Lib.plain_text)
        (linesWithEndings "ab\ncd") = some st ∧
      highlight_text c8Lib "ab\ncd" "zzz" = c8Lib.finalize st :=
  highlight_unknown_lang_falls_back Unit (List String) c8Lib "ab\ncd" "zzz"
    rfl (fun _ _ => rfl)

/-- The byte-store traversal of `blog` factors through UTF-8 decoding:
decoding every document first and then running the string-level
closure produces the same outcome as the byte-level closure. -/
theorem mapPanics_decode {Node : Type} (D : Deps Node) :
    ∀ (store : List (String × List Nat)),
      (∀ fc ∈ store, (utf8Decode fc.2).isSome) →
      ∃ sstore,
        mapPanics (fun fc => (utf8Decode fc.2).map (fun c => (fc.1, c))) store =
          some sstore ∧
        mapPanics (fun fc => buildPostBytes D fc.1 fc.2) store =
          mapPanics (fun fc => buildPost D fc.1 fc.2) sstore := by
  intro store
  induction store with
  | nil => intro _; exact ⟨[], rfl, rfl⟩
  | cons fc rest ih =>
    intro h
    have hfc := h fc (List.mem_cons_self fc rest)
    cases hdec : utf8Decode fc.2 with
    | none => rw [hdec] at hfc; cases hfc
    | some c =>
      obtain ⟨ss, h1, h2⟩ := ih (fun x hx => h x (List.mem_cons_of_mem fc hx))
      refine ⟨(fc.1, c) :: ss, ?_, ?_⟩
      · simp only [mapPanics]
        rw [hdec]
        simp only [Option.map_some']
        rw [h1]
        simp only [Option.map_some']
      · have hb : buildPostBytes D fc.1 fc.2 = buildPost D fc.1 c := by
          unfold buildPostBytes
          rw [hdec]
        simp only [mapPanics]
        rw [hb, h2]

/-- C10: both routes decode each document's raw bytes with
`String::from_utf8(..).unwrap()`.  Under the precondition that every
stored document is valid UTF-8, the decoding error branch is
unreachable — the byte-level `blog` coincides with the string-level
`blog` on the decoded store; and for a document whose bytes are not
valid UTF-8, both operations panic (no result) rather than return
one. -/
theorem utf8_decode_assumption :
    (∀ (Node : Type) (D : Deps Node) (store : List (String × List Nat)),
      (∀ fc ∈ store, (utf8Decode fc.2).isSome) →
      ∃ sstore,
        mapPanics (fun fc => (utf8Decode fc.2).map (fun c => (fc.1, c))) store =
          some sstore ∧
        blogBytes D store = blog D sstore) ∧
    (∀ (Node : Type) (D : Deps Node) (store : List (String × List Nat)) fn bs,
      (fn, bs) ∈ store → utf8Decode bs = none → blogBytes D store = none) ∧
    (∀ (Node : Type) (D : Deps Node) (store : List (String × List Nat))
        (slug : String) bs,
      List.lookup (slug ++ ".md") store = some bs → utf8Decode bs = none →
      get_blogBytes D store slug = none) := by
  refine ⟨?_, ?_, ?_⟩
  · intro Node D store h
    obtain ⟨sstore, h1, h2⟩ := mapPanics_decode D store h
    refine ⟨sstore, h1, ?_⟩
    unfold blogBytes blog blogPosts
    rw [h2]
  · intro Node D store fn bs hmem hdec
    have hbp : buildPostBytes D fn bs = none := by
      unfold buildPostBytes
      rw [hdec]
    have hnone : mapPanics (fun fc => buildPostBytes D fc.1 fc.2) store = none :=
      mapPanics_eq_none_of_mem (fn, bs) hmem hbp
    unfold blogBytes
    rw [hnone]
  · intro Node D store slug bs hlook hdec
    simp only [get_blogBytes, hlook, hdec]
    rfl

/-- Concrete deps for the C10 witness. -/
def c10Deps : Deps Unit := toyDeps dateMeta

theorem utf8_decode_assumption_witness :
    (∃ sstore,
      mapPanics (fun fc => (utf8Decode fc.2).map (fun c => (fc.1, c)))
        [("a.md", [104, 105])] = some sstore ∧
      blogBytes c10Deps [("a.md", [104, 105])] = blog c10Deps sstore) ∧
    blogBytes c10Deps [("a.md", [0xFF])] = none ∧
    get_blogBytes c10Deps [("a.md", [0xFF])] "a" = none :=
  ⟨utf8_decode_assumption.1 Unit c10Deps [("a.md", [104, 105])] (by decide),
   utf8_decode_assumption.2.1 Unit c10Deps [("a.md", [0xFF])] "a.md" [0xFF]
      (by decide) (by decide),
   utf8_decode_assumption.2.2 Unit c10Deps [("a.md", [0xFF])] "a" [0xFF]
      (by decide) (by decide)⟩

end Lithograph
